import Mathlib

/-!
Shallow embedding of the libmusicxml translation passes (Antescofo/libmusicxml):
the Guido visitor (`src/guido/xml2guidovisitor.cpp`), the MSR-to-LPSR translator
(`src/lilypond/msr2LpsrTranslator.cpp`) and the harmony element dispatch
(`src/lilypond/msrHarmonies.cpp`), together with theorems settling the spec
claims about them.

C++ machine arithmetic is mapped as follows: `int`/`long` values to `Int`,
`float` position offsets to `ℚ` (the scalings and zero tests at issue are exact
at every input used below), object identity of reference-counted score elements
to `Nat` identifiers with clone creation drawing fresh identifiers.
-/

namespace MusicXML2

/-! ## The external rational class (used by `xml2guidovisitor::parseTime`) -/

/-- Modelled from the spec: the external `rational` class ("Rational (external):
exact fraction arithmetic for durations/positions", out of scope of the core and
not under `src/`).  The class stores a raw numerator/denominator pair;
`xml2guidovisitor::parseTime` branches on the raw `getNumerator ()` /
`getDenominator ()` values (a 4/4 signature must satisfy `num == 4 && den == 4`),
so the pair is kept unreduced here. -/
structure MxmlRational where
  num : Int
  den : Int
deriving DecidableEq, Repr

/-- Modelled from the spec: exact (cross-multiplied) fraction addition of the
external rational class, kept unreduced; the mathematical value is exact. -/
def rationalAdd (a b : MxmlRational) : MxmlRational :=
  ⟨a.num * b.den + b.num * a.den, a.den * b.den⟩

/-- Mathematical value of an `MxmlRational` as a rational number. -/
def MxmlRational.toRat (r : MxmlRational) : ℚ :=
  (r.num : ℚ) / (r.den : ℚ)

/-- Modelled from the spec: the external rational class renders `string (ts)` as
"numerator/denominator". -/
def ratToString (r : MxmlRational) : String :=
  toString r.num ++ "/" ++ toString r.den

/-! ## Time signatures: `xml2guidovisitor::parseTime` (lines 449-523) -/

/-- Input of `parseTime`, as the C++ reads it off the `<time>` element: whether a
`<senza-misura>` child is present, the `symbol` attribute (empty string when
absent), the `<beats>`/`<beat-type>` children already put through `strtol`
(pairs, in document order), and the `print-object` attribute. -/
structure TimeElement where
  senzaMisura : Bool
  symbol : String
  pairs : List (Int × Int)
  printObject : String

/-- The guarded conversion of one beats/beat-type pair in `parseTime`:
`rational ts (0, 1); if (num && denum) ts.set (num, denum);`. -/
def pairRational (p : Int × Int) : MxmlRational :=
  if p.1 ≠ 0 ∧ p.2 ≠ 0 then ⟨p.1, p.2⟩ else ⟨0, 1⟩

/-- The composite-signature text loop of `parseTime`: `s << sep << beats << "/"
<< beatType; sep = "+";` unrolled left to right (the first element gets the
current separator, every later one gets "+"). -/
def timeSignLoopText : String → List (Int × Int) → String
  | _, [] => ""
  | sep, p :: rest =>
    sep ++ toString p.1 ++ "/" ++ toString p.2 ++ timeSignLoopText "+" rest

/-- The composite-signature accumulation loop of `parseTime`:
`fCurrentTimeSign += ts;` over all pairs, starting from `rational (0, 1)`. -/
def timeSignLoopSum : MxmlRational → List (Int × Int) → MxmlRational
  | acc, [] => acc
  | acc, p :: rest => timeSignLoopSum (rationalAdd acc (pairRational p)) rest

/-- Result of `parseTime`: the meter text, the accumulated `fCurrentTimeSign`
rational, and whether the meter tag is added (`print-object != "no"`). -/
structure ParseTimeResult where
  timesign : String
  fCurrentTimeSign : MxmlRational
  meterTagEmitted : Bool
deriving DecidableEq

/-- Embedding of `xml2guidovisitor::parseTime` (xml2guidovisitor.cpp:449-523).
With symbol "common" only the first pair is read (guarded); 2/2 maps to "C/",
4/4 to "C", anything else to `string (ts)`.  Symbol "cut" maps to "C/" with
signature 2/2 regardless of the pairs.  Any other symbol concatenates the pairs
joined by "+" and sums them.  Under `<senza-misura>` the text stays empty and
`fCurrentTimeSign` keeps its default value 0/1. -/
def parseTime (elt : TimeElement) : ParseTimeResult :=
  let tsCur : String × MxmlRational :=
    if ¬ elt.senzaMisura then
      if elt.symbol = "common" then
        let ts : MxmlRational :=
          match elt.pairs with
          | [] => ⟨0, 1⟩
          | p :: _ => pairRational p
        let text :=
          if ts.den = 2 ∧ ts.num = 2 then "C/"
          else if ts.den = 4 ∧ ts.num = 4 then "C"
          else ratToString ts
        (text, ts)
      else if elt.symbol = "cut" then
        ("C/", ⟨2, 2⟩)
      else
        (timeSignLoopText "" elt.pairs, timeSignLoopSum ⟨0, 1⟩ elt.pairs)
    else
      ("", ⟨0, 1⟩)
  { timesign := tsCur.1
    fCurrentTimeSign := tsCur.2
    meterTagEmitted := elt.printObject ≠ "no" }

/-- Claim-side rendering of one beats/beat-type pair as "num/den" text. -/
def fracText (p : Int × Int) : String :=
  toString p.1 ++ "/" ++ toString p.2

/-- Claim-side "+"-join of a list of fragments. -/
def joinPlusSpec : List String → String
  | [] => ""
  | [x] => x
  | x :: y :: rest => x ++ "+" ++ joinPlusSpec (y :: rest)

/-! ## Clefs: `xml2guidovisitor::parseClef` (414-447) and
`xml2guidovisitor::visitEnd (S_clef&)` (679-702) -/

/-- Outcome of `parseClef`: the clef belongs to another staff (guard
`getAttributeIntValue ("number", 1) == staffIndex` fails, nothing happens), the
sign is unknown (warning printed to `cerr`, no tag produced), or a `\clef` tag
with the given parameter is added. -/
inductive ClefParseResult where
  | skipped : ClefParseResult
  | unknownSignWarning (sign : String) : ClefParseResult
  | clefTag (param : String) : ClefParseResult
deriving DecidableEq

/-- The sign-to-letter chain of `parseClef`; `none` is the unknown-sign case. -/
def clefBaseName (clefsign : String) : Option String :=
  if clefsign = "G" then some "g"
  else if clefsign = "F" then some "f"
  else if clefsign = "C" then some "c"
  else if clefsign = "percussion" then some "perc"
  else if clefsign = "TAB" then some "TAB"
  else if clefsign = "none" then some "none"
  else none

/-- Embedding of `xml2guidovisitor::parseClef` (xml2guidovisitor.cpp:414-447).
`number` is the clef element's `number` attribute (defaulting to 1),
`staffIndex` the staff being built; the line number is appended when non-zero
and the octave change appends "+8" or "-8". -/
def parseClef (number staffIndex : Int) (clefsign : String)
    (clefline clefoctavechange : Int) : ClefParseResult :=
  if number = staffIndex then
    match clefBaseName clefsign with
    | none => ClefParseResult.unknownSignWarning clefsign
    | some base =>
      let p1 := if clefline ≠ 0 then base ++ toString clefline else base
      let p2 :=
        if clefoctavechange = 1 then p1 ++ "+8"
        else if clefoctavechange = -1 then p1 ++ "-8"
        else p1
      ClefParseResult.clefTag p2
  else ClefParseResult.skipped

/-- Embedding of `xml2guidovisitor::visitEnd (S_clef&)`
(xml2guidovisitor.cpp:679-702): classifies the visited clef
(sign, line, octave-change) into the clef key recorded in `clefsInPart`. -/
def clefKey (fSign : String) (fLine fOctaveChange : Int) : String :=
  if fSign = "G" ∧ fLine = 2 ∧ fOctaveChange = 0 then "g2"
  else if fSign = "G" ∧ fLine = 2 ∧ fOctaveChange = -1 then "g-8"
  else if fSign = "G" ∧ fLine = 2 ∧ fOctaveChange = 1 then "g+8"
  else if fSign = "F" ∧ fLine = 4 ∧ fOctaveChange = 0 then "f4"
  else if fSign = "F" ∧ fLine = 4 ∧ fOctaveChange = -1 then "f-8"
  else if fSign = "F" ∧ fLine = 4 ∧ fOctaveChange = 1 then "f+8"
  else if fSign = "C" ∧ fLine = 3 ∧ fOctaveChange = 0 then "alto"
  else if fSign = "C" ∧ fLine = 4 ∧ fOctaveChange = 0 then "tenor"
  else "unknown"

/-! ## Position conversion: `xml2guidovisitor::addPosition` (526-543 and
554-572), `xml2guidovisitor::addPosY` (584-595).

Emitted `dx=`/`dy=` parameters are modelled by their numeric value (`Option ℚ`,
`none` meaning the parameter is not added to the tag). -/

/-- Embedding of the three-argument `xml2guidovisitor::addPosition`
(xml2guidovisitor.cpp:526-543).  Note that the zero test is on the raw source
sum (`default-x + relative-x`, resp. `default-y + relative-y`), before the
half-space scaling and before the anchor offset is added. -/
def addPosition3 (defaultX relativeX defaultY relativeY yoffset : ℚ) :
    Option ℚ × Option ℚ :=
  let posx := defaultX + relativeX
  let dx := if posx ≠ 0 then some (posx / 10 * 2) else none
  let posy := defaultY + relativeY
  let dy := if posy ≠ 0 then some (posy / 10 * 2 + yoffset) else none
  (dx, dy)

/-- Embedding of the four-argument `xml2guidovisitor::addPosition`
(xml2guidovisitor.cpp:554-572); as `addPosition3` but with an x anchor offset
added after scaling (the zero tests are still on the raw source sums). -/
def addPosition4 (defaultX relativeX defaultY relativeY yoffset xoffset : ℚ) :
    Option ℚ × Option ℚ :=
  let posx := defaultX + relativeX
  let dx := if posx ≠ 0 then some (posx / 10 * 2 + xoffset) else none
  let posy := defaultY + relativeY
  let dy := if posy ≠ 0 then some (posy / 10 * 2 + yoffset) else none
  (dx, dy)

/-- Embedding of `xml2guidovisitor::addPosY` (xml2guidovisitor.cpp:584-595):
here the full result (scaled, anchor offset added, multiplied) is computed
first and the zero test is on that result. -/
def addPosY (defaultY relativeY yoffset ymultiplier : ℚ) : Option ℚ :=
  let posy0 := relativeY + defaultY
  let posy := (posy0 / 10 * 2 + yoffset) * ymultiplier
  if posy ≠ 0 then some posy else none

/-! ## Score header: `xml2guidovisitor::flushHeader` (66-91) -/

/-- A `<creator>` element as `flushHeader` reads it: its `type` attribute and
its text value. -/
structure SCreator where
  typeAttr : String
  value : String
deriving DecidableEq

/-- The score header data consumed by `flushHeader`: the stored movement title
element (if any) and the stored creator elements. -/
structure ScoreHeader where
  fTitle : Option String
  fCreators : List SCreator
deriving DecidableEq

/-- A parameter of a Guido tag: `guidoparam::create (s)` quotes by default,
`guidoparam::create (s, false)` leaves it bare. -/
inductive GuidoParam where
  | quoted (s : String)
  | bare (s : String)
deriving DecidableEq

/-- A Guido output tag with its parameters, as built by `guidotag::create`. -/
structure GuidoTag where
  name : String
  params : List GuidoParam
deriving DecidableEq

/-- The double-quote character. -/
def quoteChar : Char := Char.ofNat 34

/-- The single-quote character. -/
def singleQuoteChar : Char := Char.ofNat 39

/-- The find/replace loop of `flushHeader` (xml2guidovisitor.cpp:71-75): every
double-quote character of the title is overwritten in place with a single
quote and the search resumes at the replacement position, so the loop visits
each character once. -/
def replaceQuoteCharsAux : List Char → List Char
  | [] => []
  | c :: rest =>
    (if c = quoteChar then singleQuoteChar else c) :: replaceQuoteCharsAux rest

/-- String version of `replaceQuoteCharsAux`. -/
def replaceQuoteChars (s : String) : String :=
  ⟨replaceQuoteCharsAux s.data⟩

/-- The creator loop of `flushHeader` (xml2guidovisitor.cpp:80-89): one
`\composer` tag (value, then the bare parameter `dy=4hs`) per creator whose
`type` attribute is "Composer" or "composer". -/
def flushCreators : List SCreator → List GuidoTag
  | [] => []
  | c :: rest =>
    if c.typeAttr == "Composer" || c.typeAttr == "composer" then
      ⟨"composer", [GuidoParam.quoted c.value, GuidoParam.bare "dy=4hs"]⟩ ::
        flushCreators rest
    else
      flushCreators rest

/-- Embedding of `xml2guidovisitor::flushHeader` (xml2guidovisitor.cpp:66-91):
returns the cleared header (`fTitle` nulled, `fCreators` cleared) and the tags
added to the output, in order: the `\title` tag (quote characters replaced, only
when a title is stored) followed by the `\composer` tags. -/
def flushHeader (header : ScoreHeader) : ScoreHeader × List GuidoTag :=
  let titleTags : List GuidoTag :=
    match header.fTitle with
    | some title => [⟨"title", [GuidoParam.quoted (replaceQuoteChars title)]⟩]
    | none => []
  (⟨none, []⟩, titleTags ++ flushCreators header.fCreators)

/-! ## Staff creation: `xml2guidovisitor::visitStart (S_part&)` (192-376)

The voice loop (lines 219-368) and the trailing implicit-staff loop (lines
370-375).  `partsummary` (voices, main staves, staff count) is not under
`src/`; its outputs are taken as inputs here: the list of the voices' main
staves in discovery order, and the part's staff count. -/

/-- State of the Guido staff numbering carried across the part visit:
`fCurrentStaffIndex` and `fCurrentPartStaffOffset` (members of
`xml2guidovisitor`), plus the record of what was opened: `createdStaves` lists
the staff indices passed to `createStaff` (synthesized empty staves, each a
sequence opened with a `\staff` tag) and `voiceStaffTags` lists the staff index
of the `\staff` tag of each per-voice sequence, in order. -/
structure GuidoPartState where
  fCurrentStaffIndex : Int
  fCurrentPartStaffOffset : Int
  createdStaves : List Int
  voiceStaffTags : List Int
deriving DecidableEq, Repr

/-- Indices `i, i+1, ..., i+n-1`: the staff indices visited by a
`createStaff` loop of `n` iterations starting at index `i`. -/
def createStaffRange (i : Int) : Nat → List Int
  | 0 => []
  | n + 1 => i :: createStaffRange (i + 1) n

/-- The intermediate-staff loop (xml2guidovisitor.cpp:228-231 and 244-247):
`while (fCurrentStaffIndex < targetStaff + fCurrentPartStaffOffset)
{ createStaff (fCurrentStaffIndex, elt); fCurrentStaffIndex++; }`. -/
def fillIntermediateStaves (targetStaff : Int) (st : GuidoPartState) :
    GuidoPartState :=
  let n := (targetStaff + st.fCurrentPartStaffOffset - st.fCurrentStaffIndex).toNat
  { st with
    createdStaves := st.createdStaves ++ createStaffRange st.fCurrentStaffIndex n
    fCurrentStaffIndex := st.fCurrentStaffIndex + n }

/-- One iteration of the voice loop (xml2guidovisitor.cpp:219-368), restricted
to the staff bookkeeping: the three-way branch on `targetStaff` (the C++ local,
initialized to -1), the conditional staff-index increments, the intermediate
staff synthesis, and the `\staff` tag opening the voice's sequence (lines
250-255; the `notesOnly` flag of the `targetStaff == mainstaff` branch does not
affect staff numbering and is not tracked).  Returns the new `targetStaff`. -/
def visitPartVoice (st : GuidoPartState) (targetStaff mainstaff : Int) :
    Int × GuidoPartState :=
  let tSt : Int × GuidoPartState :=
    if targetStaff = -1 then
      let st1 := { st with fCurrentStaffIndex := st.fCurrentStaffIndex + 1 }
      (mainstaff, fillIntermediateStaves mainstaff st1)
    else if targetStaff = mainstaff then
      (targetStaff, st)
    else
      let st1 :=
        if mainstaff > targetStaff then
          { st with fCurrentStaffIndex := st.fCurrentStaffIndex + 1 }
        else st
      (mainstaff, fillIntermediateStaves mainstaff st1)
  let st2 := tSt.2
  (tSt.1, { st2 with voiceStaffTags := st2.voiceStaffTags ++ [st2.fCurrentStaffIndex] })

/-- The voice loop folded over the voices' main staves in discovery order. -/
def visitPartVoices (st : GuidoPartState) (targetStaff : Int) :
    List Int → GuidoPartState
  | [] => st
  | m :: rest =>
    let step := visitPartVoice st targetStaff m
    visitPartVoices step.2 step.1 rest

/-- Embedding of the staff bookkeeping of `xml2guidovisitor::visitStart
(S_part&)`: the voice loop from `targetStaff = -1`, then the trailing
implicit-staff loop (lines 370-374: `while (fCurrentStaffIndex <
fCurrentPartStaffOffset + ps.countStaves ()) { fCurrentStaffIndex++;
createStaff (fCurrentStaffIndex, elt); }`, note the increment-then-create
order), then `fCurrentPartStaffOffset += ps.countStaves ()` (line 375). -/
def visitStartPart (mainstaffs : List Int) (countStaves : Int)
    (st : GuidoPartState) : GuidoPartState :=
  let st1 := visitPartVoices st (-1) mainstaffs
  let n := (st1.fCurrentPartStaffOffset + countStaves - st1.fCurrentStaffIndex).toNat
  let st2 :=
    { st1 with
      createdStaves := st1.createdStaves ++ createStaffRange (st1.fCurrentStaffIndex + 1) n
      fCurrentStaffIndex := st1.fCurrentStaffIndex + n }
  { st2 with fCurrentPartStaffOffset := st2.fCurrentPartStaffOffset + countStaves }

/-- Fresh staff-numbering state at the first part of a score. -/
def initGuidoPartState : GuidoPartState :=
  { fCurrentStaffIndex := 0
    fCurrentPartStaffOffset := 0
    createdStaves := []
    voiceStaffTags := [] }

/-- Claim-side chain predicate for the amended staff claim: `staffSpanChain m ms
n` holds when the main staves `ms` proceed from staff `m` in non-decreasing
order without gaps (each entry equals the previous staff or the next index) and
end exactly at staff `n`. -/
def staffSpanChain : Int → List Int → Int → Bool
  | m, [], n => m == n
  | m, s :: rest, n => (s == m || s == m + 1) && staffSpanChain s rest n

/-! ## MSR-to-LPSR translation: tuplets, notes (`msr2LpsrTranslator.cpp`)

Score elements are modelled by `Nat` identifiers; newborn clones draw a fresh
identifier from a counter, and `fCloneOf` records which identifier is a clone
of which canonical MSR element.  Appending an element to a container records
its identifier, so identifier membership is object aliasing. -/

/-- Tuplet line shapes (`msrTuplet::msrTupletLineShapeKind`); the switch in
`visitStart (S_msrTuplet&)` covers exactly these two values. -/
inductive TupletLineShapeKind where
  | kTupletLineShapeStraight
  | kTupletLineShapeCurved
deriving DecidableEq

/-- A canonical MSR tuplet as the tuplet handlers read it: its identity and its
line shape kind. -/
structure MsrTuplet where
  ident : Nat
  tupletLineShapeKind : TupletLineShapeKind
deriving DecidableEq

/-- Note kinds (`msrNote::msrNoteKind`), as switched on by
`msr2LpsrTranslator::visitEnd (S_msrNote&)`. -/
inductive MsrNoteKind where
  | k_NoNoteKind
  | kRestNote
  | kSkipNote
  | kUnpitchedNote
  | kStandaloneNote
  | kDoubleTremoloMemberNote
  | kGraceNote
  | kChordMemberNote
  | kGraceChordMemberNote
  | kTupletMemberNote
  | kGraceTupletMemberNote
  | kTupletMemberUnpitchedNote
deriving DecidableEq

/-- A visited canonical MSR note: identity, kind, input source line, and its
`asString ()` rendering (used in error messages). -/
structure MsrNote where
  ident : Nat
  noteKind : MsrNoteKind
  inputLineNumber : Int
  asStringRepr : String
deriving DecidableEq

/-- The note clone the translator currently holds (`fCurrentNonGraceNoteClone`
or `fCurrentGraceNoteClone`): identity, `asShortString ()` rendering, the
double-tremolo position markers, and the editorial accidental kind. -/
structure MsrNoteClone where
  ident : Nat
  shortName : String
  isFirstNoteInADoubleTremolo : Bool
  isSecondNoteInADoubleTremolo : Bool
  editorialAccidentalYes : Bool
deriving DecidableEq

/-- An internal error as raised by `msrInternalError`: the offending element's
input source line and the message built by the detecting code. -/
structure InternalError where
  inputLineNumber : Int
  message : String
deriving DecidableEq

/-- The translator state touched by the tuplet and note handlers of
`msr2LpsrTranslator`.  Output containers record element identifiers:
`fVoiceCloneTuplets` and `fVoiceCloneNotes` are what was appended to
`fCurrentVoiceClone` (via `appendTupletToVoice` / `appendNoteToVoiceClone`),
`fNestedTupletAdds` records `addTupletToTupletClone` calls as (stack top,
added tuplet) pairs, `fTupletNoteAdds` records `addNoteToTuplet` calls. -/
structure TranslatorState where
  fNextCloneId : Nat
  fCloneOf : List (Nat × Nat)
  fTupletClonesStack : List Nat
  fNestedTupletAdds : List (Nat × Nat)
  fVoiceCloneTuplets : List Nat
  fVoiceCloneNotes : List Nat
  fTupletNoteAdds : List (Nat × Nat)
  fCurrentChordCloneNotes : List Nat
  fCurrentGraceGroupNotes : List Nat
  fDoubleTremoloFirst : Option Nat
  fDoubleTremoloSecond : Option Nat
  fOnGoingChord : Bool
  fOnGoingGraceNotesGroup : Bool
  fOnGoingDoubleTremolo : Bool
  fOnGoingNote : Bool
  fCurrentNonGraceNoteClone : MsrNoteClone
  fCurrentGraceNoteClone : MsrNoteClone
  fTupletsCurvedBracketsSchemeFunctionIsNeeded : Bool
  fEditorialAccidentalSchemeFunctionIsNeeded : Bool
  fFatal : Option InternalError
deriving DecidableEq

/-- A placeholder note clone for initial states. -/
def dummyNoteClone : MsrNoteClone :=
  ⟨0, "", false, false, false⟩

/-- A fresh translator state; clone identifiers are allocated from 100 so they
are disjoint from the canonical element identifiers used in the theorems. -/
def initTranslatorState : TranslatorState :=
  { fNextCloneId := 100
    fCloneOf := []
    fTupletClonesStack := []
    fNestedTupletAdds := []
    fVoiceCloneTuplets := []
    fVoiceCloneNotes := []
    fTupletNoteAdds := []
    fCurrentChordCloneNotes := []
    fCurrentGraceGroupNotes := []
    fDoubleTremoloFirst := none
    fDoubleTremoloSecond := none
    fOnGoingChord := false
    fOnGoingGraceNotesGroup := false
    fOnGoingDoubleTremolo := false
    fOnGoingNote := false
    fCurrentNonGraceNoteClone := dummyNoteClone
    fCurrentGraceNoteClone := dummyNoteClone
    fTupletsCurvedBracketsSchemeFunctionIsNeeded := false
    fEditorialAccidentalSchemeFunctionIsNeeded := false
    fFatal := none }

/-- Modelled from the spec: `msrInternalError` (in the excluded utilities
layer) reports the input source line with the message and aborts the
translation ("Reported with detecting-code location and input source line;
process aborts - no recovery").  The handlers below return this state
immediately, performing no further effect. -/
def msrInternalError (inputLineNumber : Int) (message : String)
    (st : TranslatorState) : TranslatorState :=
  { st with fFatal := some ⟨inputLineNumber, message⟩ }

/-- Embedding of `msr2LpsrTranslator::visitStart (S_msrTuplet&)`
(msr2LpsrTranslator.cpp:4322-4359): create the tuplet newborn clone (fresh
identifier, registered in `fCloneOf`), push it on `fTupletClonesStack`, and
switch on the line shape (both enumerants request the curved-brackets Scheme
function). -/
def visitStartTuplet (elt : MsrTuplet) (st : TranslatorState) : TranslatorState :=
  let tupletClone := st.fNextCloneId
  let st1 :=
    { st with
      fNextCloneId := st.fNextCloneId + 1
      fCloneOf := st.fCloneOf ++ [(tupletClone, elt.ident)]
      fTupletClonesStack := tupletClone :: st.fTupletClonesStack }
  match elt.tupletLineShapeKind with
  | TupletLineShapeKind.kTupletLineShapeStraight =>
    { st1 with fTupletsCurvedBracketsSchemeFunctionIsNeeded := true }
  | TupletLineShapeKind.kTupletLineShapeCurved =>
    { st1 with fTupletsCurvedBracketsSchemeFunctionIsNeeded := true }

/-- Embedding of `msr2LpsrTranslator::visitEnd (S_msrTuplet&)`
(msr2LpsrTranslator.cpp:4361-4419): `fTupletClonesStack.pop ()` with no
emptiness check (on an empty `std::stack` this is undefined behavior in C++;
modelled as `List.tail`, and no error of any kind is raised - the function
contains no `msrInternalError` call); then, if the stack is non-empty, nest the
visited tuplet `elt` (the canonical MSR element, not the popped clone) into the
new stack top via `addTupletToTupletClone (elt)`, else append `elt` to the
current voice clone via `appendTupletToVoice (elt)`. -/
def visitEndTuplet (elt : MsrTuplet) (st : TranslatorState) : TranslatorState :=
  let st1 := { st with fTupletClonesStack := st.fTupletClonesStack.tail }
  match st1.fTupletClonesStack with
  | top :: _ =>
    { st1 with fNestedTupletAdds := st1.fNestedTupletAdds ++ [(top, elt.ident)] }
  | [] =>
    { st1 with fVoiceCloneTuplets := st1.fVoiceCloneTuplets ++ [elt.ident] }

/-- A tuplet-start or tuplet-end visit. -/
inductive TupletEvent where
  | tupletStart (t : MsrTuplet)
  | tupletClose (t : MsrTuplet)

/-- Processing a sequence of tuplet visits. -/
def processTupletEvents : List TupletEvent → TranslatorState → TranslatorState
  | [], st => st
  | TupletEvent.tupletStart t :: rest, st =>
    processTupletEvents rest (visitStartTuplet t st)
  | TupletEvent.tupletClose t :: rest, st =>
    processTupletEvents rest (visitEndTuplet t st)

/-- Balanced (properly nested) tuplet start/end visit sequences, as produced by
the depth-first browse of a well-formed MSR tree. -/
inductive BalancedTuplets : List TupletEvent → Prop where
  | nil : BalancedTuplets []
  | wrap (t u : MsrTuplet) (ws : List TupletEvent) :
      BalancedTuplets ws →
      BalancedTuplets (TupletEvent.tupletStart t :: ws ++ [TupletEvent.tupletClose u])
  | append (xs ys : List TupletEvent) :
      BalancedTuplets xs → BalancedTuplets ys → BalancedTuplets (xs ++ ys)

/-- A single-quote string for the message texts below. -/
def sq : String :=
  ⟨[singleQuoteChar]⟩

/-- The chord-member-outside-a-chord message of `visitEnd (S_msrNote&)`
(built identically at msr2LpsrTranslator.cpp:3973-3976 and 3997-4000). -/
def chordMemberOutsideChordMessage (elt : MsrNote) : String :=
  "msr2LpsrTranslator:::visitEnd (S_msrNote& elt): chord member note " ++
    elt.asStringRepr ++ " appears outside of a chord"

/-- The grace-note-outside-grace-notes message (msr2LpsrTranslator.cpp:3879-3881). -/
def graceNoteOutsideMessage (clone : MsrNoteClone) : String :=
  "grace note " ++ sq ++ clone.shortName ++ sq ++ " found outside of grace notes"

/-- The double-tremolo-note-outside message (msr2LpsrTranslator.cpp:3855-3857). -/
def tremoloNoteOutsideMessage (clone : MsrNoteClone) : String :=
  "double tremolo note " ++ sq ++ clone.shortName ++ sq ++
    " found outside of a double tremolo"

/-- The unmarked-double-tremolo-note message (msr2LpsrTranslator.cpp:3840-3842). -/
def tremoloNoteUnmarkedMessage (clone : MsrNoteClone) : String :=
  "note " ++ sq ++ clone.shortName ++ sq ++
    " belongs to a double tremolo, but is not marked as such"

/-- The code after the note-kind switch in `visitEnd (S_msrNote&)`
(msr2LpsrTranslator.cpp:4030-4087): the editorial-accidental switch on the
clone (requesting the Scheme function), the no-effect cautionary switch, and
`fOnGoingNote = false`.  It runs only when the switch did not abort. -/
def finishVisitEndNote (st : TranslatorState) : TranslatorState :=
  let st1 :=
    if st.fCurrentNonGraceNoteClone.editorialAccidentalYes then
      { st with fEditorialAccidentalSchemeFunctionIsNeeded := true }
    else st
  { st1 with fOnGoingNote := false }

/-- Embedding of `msr2LpsrTranslator::visitEnd (S_msrNote&)`
(msr2LpsrTranslator.cpp:3680-4088): the switch on the visited note's kind.
Rest/skip/unpitched/standalone notes append the current non-grace note clone to
the voice clone; a double-tremolo member needs `fOnGoingDoubleTremolo` and a
first/second marker; a grace note needs `fOnGoingGraceNotesGroup`; a (grace)
chord member needs `fOnGoingChord`; tuplet members are added to the stack-top
tuplet clone (`fTupletClonesStack.top ()` is likewise unchecked in the source;
on an empty stack modelled as no addition).  Each structural violation calls
`msrInternalError` with the visited note's input line and the handler stops
there. -/
def visitEndNote (elt : MsrNote) (st : TranslatorState) : TranslatorState :=
  match elt.noteKind with
  | MsrNoteKind.k_NoNoteKind => finishVisitEndNote st
  | MsrNoteKind.kRestNote =>
    finishVisitEndNote
      { st with fVoiceCloneNotes := st.fVoiceCloneNotes ++ [st.fCurrentNonGraceNoteClone.ident] }
  | MsrNoteKind.kSkipNote =>
    finishVisitEndNote
      { st with fVoiceCloneNotes := st.fVoiceCloneNotes ++ [st.fCurrentNonGraceNoteClone.ident] }
  | MsrNoteKind.kUnpitchedNote =>
    finishVisitEndNote
      { st with fVoiceCloneNotes := st.fVoiceCloneNotes ++ [st.fCurrentNonGraceNoteClone.ident] }
  | MsrNoteKind.kStandaloneNote =>
    finishVisitEndNote
      { st with fVoiceCloneNotes := st.fVoiceCloneNotes ++ [st.fCurrentNonGraceNoteClone.ident] }
  | MsrNoteKind.kDoubleTremoloMemberNote =>
    if st.fOnGoingDoubleTremolo then
      if st.fCurrentNonGraceNoteClone.isFirstNoteInADoubleTremolo then
        finishVisitEndNote
          { st with fDoubleTremoloFirst := some st.fCurrentNonGraceNoteClone.ident }
      else if st.fCurrentNonGraceNoteClone.isSecondNoteInADoubleTremolo then
        finishVisitEndNote
          { st with fDoubleTremoloSecond := some st.fCurrentNonGraceNoteClone.ident }
      else
        msrInternalError elt.inputLineNumber
          (tremoloNoteUnmarkedMessage st.fCurrentNonGraceNoteClone) st
    else
      msrInternalError elt.inputLineNumber
        (tremoloNoteOutsideMessage st.fCurrentNonGraceNoteClone) st
  | MsrNoteKind.kGraceNote =>
    if ¬ st.fOnGoingGraceNotesGroup then
      msrInternalError elt.inputLineNumber
        (graceNoteOutsideMessage st.fCurrentNonGraceNoteClone) st
    else
      finishVisitEndNote
        { st with fCurrentGraceGroupNotes := st.fCurrentGraceGroupNotes ++ [st.fCurrentGraceNoteClone.ident] }
  | MsrNoteKind.kChordMemberNote =>
    if st.fOnGoingChord then
      finishVisitEndNote
        { st with fCurrentChordCloneNotes := st.fCurrentChordCloneNotes ++ [st.fCurrentNonGraceNoteClone.ident] }
    else
      msrInternalError elt.inputLineNumber (chordMemberOutsideChordMessage elt) st
  | MsrNoteKind.kGraceChordMemberNote =>
    if st.fOnGoingChord then
      finishVisitEndNote
        { st with fCurrentChordCloneNotes := st.fCurrentChordCloneNotes ++ [st.fCurrentGraceNoteClone.ident] }
    else
      msrInternalError elt.inputLineNumber (chordMemberOutsideChordMessage elt) st
  | MsrNoteKind.kTupletMemberNote =>
    match st.fTupletClonesStack with
    | top :: _ =>
      finishVisitEndNote
        { st with fTupletNoteAdds := st.fTupletNoteAdds ++ [(top, st.fCurrentNonGraceNoteClone.ident)] }
    | [] => finishVisitEndNote st
  | MsrNoteKind.kGraceTupletMemberNote =>
    match st.fTupletClonesStack with
    | top :: _ =>
      finishVisitEndNote
        { st with fTupletNoteAdds := st.fTupletNoteAdds ++ [(top, st.fCurrentNonGraceNoteClone.ident)] }
    | [] => finishVisitEndNote st
  | MsrNoteKind.kTupletMemberUnpitchedNote =>
    match st.fTupletClonesStack with
    | top :: _ =>
      finishVisitEndNote
        { st with fTupletNoteAdds := st.fTupletNoteAdds ++ [(top, st.fCurrentNonGraceNoteClone.ident)] }
    | [] => finishVisitEndNote st

/-! ## Visitor dispatch: `msrHarmony::acceptIn` / `acceptOut`
(msrHarmonies.cpp:555-597) -/

/-- A canonical MSR harmony element as the dispatch sees it. -/
structure MsrHarmony where
  inputLineNumber : Int
deriving DecidableEq

/-- The `visitor<S_msrHarmony>` interface: a visitor that implements it
provides both a `visitStart` and a `visitEnd` handler for harmonies. -/
structure HarmonyVisitorHandlers (σ : Type) where
  visitStartHarmony : MsrHarmony → σ → σ
  visitEndHarmony : MsrHarmony → σ → σ

/-- A visitor as seen through `basevisitor*`: the
`dynamic_cast<visitor<S_msrHarmony>*>` in `acceptIn`/`acceptOut` succeeds
exactly when the visitor implements the harmony interface, i.e. when
`harmonyHandlers` is `some`. -/
structure Basevisitor (σ : Type) where
  harmonyHandlers : Option (HarmonyVisitorHandlers σ)

/-- Embedding of `msrHarmony::acceptIn` (msrHarmonies.cpp:555-575): if the
dynamic cast succeeds, launch `visitStart` on this element; otherwise return
with no effect and no error. -/
def msrHarmonyAcceptIn {σ : Type} (elem : MsrHarmony) (v : Basevisitor σ)
    (st : σ) : σ :=
  match v.harmonyHandlers with
  | some p => p.visitStartHarmony elem st
  | none => st

/-- Embedding of `msrHarmony::acceptOut` (msrHarmonies.cpp:577-597): if the
dynamic cast succeeds, launch `visitEnd` on this element; otherwise return
with no effect and no error. -/
def msrHarmonyAcceptOut {σ : Type} (elem : MsrHarmony) (v : Basevisitor σ)
    (st : σ) : σ :=
  match v.harmonyHandlers with
  | some p => p.visitEndHarmony elem st
  | none => st

/-! ## Repeat state machine (per voice)

The repeat visit handlers in `msr2LpsrTranslator.cpp` (4677-4840) delegate to
`msrVoice::handleRepeatStartInVoiceClone`,
`handleRepeatCommonPartStartInVoiceClone`, `handleRepeatEndingStartInVoiceClone`
etc., which live in `msr.cpp` - not under `src/`. -/

/-- Repeat ending kinds (`msrRepeatEnding::msrRepeatEndingKind`), as passed by
`visitStart (S_msrRepeatEnding&)`. -/
inductive MsrRepeatEndingKind where
  | kHookedEnding
  | kHooklessEnding
deriving DecidableEq

/-- Modelled from the spec: the per-voice repeat translation states, "states
{Outside, InCommonPart, InEnding(number, kind)}"; an ending records the
ending's number and kind. -/
inductive RepeatPhase where
  | outside
  | inCommonPart
  | inEnding (number : String) (kind : MsrRepeatEndingKind)
deriving DecidableEq

/-- Per-voice repeat translation state: the phase and the number of currently
open repeat wrappers. -/
structure RepeatVoiceState where
  phase : RepeatPhase
  openWrappers : Nat
deriving DecidableEq

/-- The repeat-related visits forwarded by `msr2LpsrTranslator` to the voice
clone, with the data the translator passes (msr2LpsrTranslator.cpp:4677-4840:
ending number and kind from `getRepeatEndingNumber ()` /
`getRepeatEndingKind ()`). -/
inductive RepeatEvent where
  | repeatStart
  | repeatCommonPartStart
  | repeatCommonPartEnd
  | repeatEndingStart (number : String) (kind : MsrRepeatEndingKind)
  | repeatEndingEnd (number : String) (kind : MsrRepeatEndingKind)
  | repeatEnd
deriving DecidableEq

/-- Modelled from the spec: the per-voice repeat state machine implemented by
the `msrVoice::handleRepeat...InVoiceClone` family (in `msr.cpp`, not under
`src/`): "RepeatStart: Outside -> InCommonPart (opens wrapper).
RepeatCommonPartStart/End bound the common section.  RepeatEndingStart/End
transition into/out of InEnding, recording ending number/kind.  RepeatEnd:
closes wrapper, -> Outside.  Malformed nesting is fatal", and "repeat-ending
end without matching start" is an internal error. -/
def handleRepeatEvent : RepeatEvent → RepeatVoiceState → Except String RepeatVoiceState
  | RepeatEvent.repeatStart, st =>
    match st.phase with
    | RepeatPhase.outside =>
      Except.ok { phase := RepeatPhase.inCommonPart, openWrappers := st.openWrappers + 1 }
    | _ => Except.error "repeat start while already inside a repeat: malformed nesting"
  | RepeatEvent.repeatCommonPartStart, st =>
    match st.phase with
    | RepeatPhase.inCommonPart => Except.ok st
    | _ => Except.error "repeat common part start outside a repeat common context"
  | RepeatEvent.repeatCommonPartEnd, st =>
    match st.phase with
    | RepeatPhase.inCommonPart => Except.ok st
    | _ => Except.error "repeat common part end outside a repeat common context"
  | RepeatEvent.repeatEndingStart n k, st =>
    match st.phase with
    | RepeatPhase.inCommonPart => Except.ok { st with phase := RepeatPhase.inEnding n k }
    | RepeatPhase.inEnding _ _ =>
      Except.error "repeat ending start while already in an ending: malformed nesting"
    | RepeatPhase.outside =>
      Except.error "repeat ending start outside a repeat: malformed nesting"
  | RepeatEvent.repeatEndingEnd _ _, st =>
    match st.phase with
    | RepeatPhase.inEnding _ _ => Except.ok { st with phase := RepeatPhase.inCommonPart }
    | _ => Except.error "repeat ending end without matching start"
  | RepeatEvent.repeatEnd, st =>
    match st.phase with
    | RepeatPhase.inCommonPart =>
      Except.ok { phase := RepeatPhase.outside, openWrappers := st.openWrappers - 1 }
    | _ => Except.error "repeat end without matching start: malformed nesting"

/-! # Theorems -/

/-! ## Helper lemmas for the time-signature claim -/

/-- The text loop on a non-empty pair list yields the separator followed by the
"+"-join of the rendered pairs. -/
theorem timeSignLoopText_cons (sep : String) (p : Int × Int) (rest : List (Int × Int)) :
    timeSignLoopText sep (p :: rest) = sep ++ joinPlusSpec ((p :: rest).map fracText) := by
  induction rest generalizing sep p with
  | nil =>
    simp [timeSignLoopText, joinPlusSpec, fracText, String.append_assoc, String.append_empty]
  | cons q r ih =>
    rw [timeSignLoopText, ih]
    simp [joinPlusSpec, fracText, String.append_assoc]

/-- The guarded pair conversion never produces a zero denominator. -/
theorem pairRational_den_ne_zero (p : Int × Int) : (pairRational p).den ≠ 0 := by
  unfold pairRational
  split
  · next h => exact h.2
  · simp

/-- Unreduced cross-multiplied addition has the exact rational value. -/
theorem rationalAdd_toRat (a b : MxmlRational) (ha : a.den ≠ 0) (hb : b.den ≠ 0) :
    (rationalAdd a b).toRat = a.toRat + b.toRat := by
  have ha' : (a.den : ℚ) ≠ 0 := Int.cast_ne_zero.mpr ha
  have hb' : (b.den : ℚ) ≠ 0 := Int.cast_ne_zero.mpr hb
  unfold rationalAdd MxmlRational.toRat
  push_cast
  field_simp

/-- The accumulation loop preserves non-zero denominators. -/
theorem timeSignLoopSum_den_ne_zero (ps : List (Int × Int)) (acc : MxmlRational)
    (ha : acc.den ≠ 0) : (timeSignLoopSum acc ps).den ≠ 0 := by
  induction ps generalizing acc with
  | nil => exact ha
  | cons p rest ih =>
    exact ih _ (mul_ne_zero ha (pairRational_den_ne_zero p))

/-- The accumulation loop computes the exact rational sum of the guarded pairs. -/
theorem timeSignLoopSum_toRat (ps : List (Int × Int)) (acc : MxmlRational)
    (ha : acc.den ≠ 0) :
    (timeSignLoopSum acc ps).toRat =
      acc.toRat + (ps.map (fun p => (pairRational p).toRat)).sum := by
  induction ps generalizing acc with
  | nil => simp [timeSignLoopSum]
  | cons p rest ih =>
    rw [timeSignLoopSum, ih _ (mul_ne_zero ha (pairRational_den_ne_zero p)),
      rationalAdd_toRat acc _ ha (pairRational_den_ne_zero p)]
    simp [add_assoc]

/-! ## C4: time-signature text and accumulated signature -/

/-- C4: `parseTime` maps a "common" 4/4 signature to meter text "C", a "cut"
signature to "C/" with active signature 2/2, and any other symbol to the
numerator/denominator pairs joined by "+", the accumulated `fCurrentTimeSign`
being the exact rational sum of the (guarded) pairs; in particular
[(3,8),(2,8)] with a non-common symbol gives text "3/8+2/8" and sum 5/8. -/
theorem parseTime_text_and_sum (symbol po : String) (pairs : List (Int × Int)) :
    (parseTime ⟨false, "common", [(4, 4)], "yes"⟩).timesign = "C" ∧
    (parseTime ⟨false, "cut", pairs, po⟩).timesign = "C/" ∧
    (parseTime ⟨false, "cut", pairs, po⟩).fCurrentTimeSign = ⟨2, 2⟩ ∧
    (symbol ≠ "common" → symbol ≠ "cut" →
      (parseTime ⟨false, symbol, pairs, po⟩).timesign = joinPlusSpec (pairs.map fracText) ∧
      (parseTime ⟨false, symbol, pairs, po⟩).fCurrentTimeSign.toRat =
        (pairs.map (fun p => (pairRational p).toRat)).sum) ∧
    (parseTime ⟨false, "", [(3, 8), (2, 8)], "yes"⟩).timesign = "3/8+2/8" ∧
    (parseTime ⟨false, "", [(3, 8), (2, 8)], "yes"⟩).fCurrentTimeSign.toRat = 5 / 8 := by
  refine ⟨by decide, by simp [parseTime], by simp [parseTime], ?_, by decide, ?_⟩
  · intro h1 h2
    constructor
    · cases pairs with
      | nil => simp [parseTime, h1, h2, timeSignLoopText, joinPlusSpec]
      | cons p rest => simp [parseTime, h1, h2, timeSignLoopText_cons]
    · have hsum := timeSignLoopSum_toRat pairs ⟨0, 1⟩ (by simp)
      have h0 : (⟨0, 1⟩ : MxmlRational).toRat = 0 := by
        simp [MxmlRational.toRat]
      rw [h0, zero_add] at hsum
      simpa [parseTime, h1, h2] using hsum
  · have hval : (parseTime ⟨false, "", [(3, 8), (2, 8)], "yes"⟩).fCurrentTimeSign
        = ⟨40, 64⟩ := by decide
    rw [hval]
    norm_num [MxmlRational.toRat]

/-- C4 witness: the general composite branch at the concrete non-common input
[(3,8),(2,8)] with symbol "x". -/
theorem parseTime_text_and_sum_witness :
    (parseTime ⟨false, "x", [(3, 8), (2, 8)], "yes"⟩).timesign =
      joinPlusSpec ([((3 : Int), (8 : Int)), (2, 8)].map fracText) ∧
    (parseTime ⟨false, "x", [(3, 8), (2, 8)], "yes"⟩).fCurrentTimeSign.toRat =
      ([((3 : Int), (8 : Int)), (2, 8)].map (fun p => (pairRational p).toRat)).sum :=
  (parseTime_text_and_sum "x" "yes" [(3, 8), (2, 8)]).2.2.2.1 (by decide) (by decide)

/-! ## C5: clef conversion -/

/-- C5: the clef classification of `visitEnd (S_clef&)` maps (G,2,0) to "g2",
(F,4,-1) to "f-8" and (C,3,0) to "alto"; and `parseClef` on an unrecognized
clef sign (one outside its sign table, `clefBaseName` empty) reports the
unknown-sign warning and never produces a clef tag. -/
theorem clef_conversion_and_unknown_sign (sign : String)
    (number staffIndex line octaveChange : Int) :
    clefKey "G" 2 0 = "g2" ∧
    clefKey "F" 4 (-1) = "f-8" ∧
    clefKey "C" 3 0 = "alto" ∧
    (clefBaseName sign = none →
      parseClef staffIndex staffIndex sign line octaveChange =
        ClefParseResult.unknownSignWarning sign) ∧
    (clefBaseName sign = none → ∀ param,
      parseClef number staffIndex sign line octaveChange ≠
        ClefParseResult.clefTag param) := by
  refine ⟨by decide, by decide, by decide, ?_, ?_⟩
  · intro h
    simp [parseClef, h]
  · intro h param
    unfold parseClef
    split
    · rw [h]
      simp
    · simp

/-- C5 witness: the unknown-sign branch at the concrete sign "treble". -/
theorem clef_conversion_and_unknown_sign_witness :
    parseClef 1 1 "treble" 2 0 = ClefParseResult.unknownSignWarning "treble" :=
  (clef_conversion_and_unknown_sign "treble" 1 1 2 0).2.2.2.1 (by decide)

/-! ## C8: position conversion -/

/-- C8 counterexample: `addPosition` (both overloads) emits a 0-valued `dy`
parameter when the source offset is non-zero but the anchor offset cancels it
(default-y 5 tenths, anchor offset -1 half-space), refuting "a zero result is
omitted entirely rather than emitted as a 0-valued parameter": the zero test is
on the raw source sum, not on the result. -/
theorem addPosition_zero_result_emitted :
    (addPosition3 0 0 5 0 (-1)).2 = some 0 ∧
    (addPosition4 0 0 5 0 (-1) 0).2 = some 0 := by
  constructor <;> norm_num [addPosition3, addPosition4]

/-- C8 amended: `addPosition` omits a parameter exactly when the raw source sum
(default plus relative, before scaling and anchor) is zero - so zero source
offsets produce no `dx`/`dy` parameter regardless of the anchor offsets - while
`addPosY` tests the fully converted result (scaled by 2/10, anchor added,
multiplied) and omits exactly a zero result. -/
theorem position_omission_semantics (dX rX dY rY yo xo ym : ℚ) :
    (dX + rX = 0 →
      (addPosition3 dX rX dY rY yo).1 = none ∧ (addPosition4 dX rX dY rY yo xo).1 = none) ∧
    (dY + rY = 0 →
      (addPosition3 dX rX dY rY yo).2 = none ∧ (addPosition4 dX rX dY rY yo xo).2 = none) ∧
    (((rY + dY) / 10 * 2 + yo) * ym = 0 → addPosY dY rY yo ym = none) ∧
    (((rY + dY) / 10 * 2 + yo) * ym ≠ 0 →
      addPosY dY rY yo ym = some (((rY + dY) / 10 * 2 + yo) * ym)) := by
  refine ⟨?_, ?_, ?_, ?_⟩ <;> intro h <;>
    simp [addPosition3, addPosition4, addPosY, h]

/-- C8 witness: zero source offsets with a non-zero anchor produce no
parameter from `addPosition`, and `addPosY` emits the non-zero result. -/
theorem position_omission_semantics_witness :
    (addPosition3 0 0 0 0 3).1 = none ∧
    (addPosition3 0 0 0 0 3).2 = none ∧
    addPosY 0 0 3 1 = some 3 := by
  have h3 := (position_omission_semantics 0 0 0 0 3 0 1).2.2.2 (by norm_num)
  have he : (((0 : ℚ) + 0) / 10 * 2 + 3) * 1 = 3 := by norm_num
  rw [he] at h3
  exact ⟨((position_omission_semantics 0 0 0 0 3 0 1).1 (by norm_num)).1,
    ((position_omission_semantics 0 0 0 0 3 0 1).2.1 (by norm_num)).1, h3⟩

/-! ## C9: acceptIn/acceptOut dispatch -/

/-- C9: `msrHarmony::acceptIn`/`acceptOut` invoke the visitor's
`visitStart`/`visitEnd` handler exactly when the dynamic cast to
`visitor<S_msrHarmony>` succeeds (the visitor implements the harmony
handlers); otherwise they return with no effect and no error. -/
theorem acceptIn_acceptOut_dispatch {σ : Type} (elem : MsrHarmony)
    (v : Basevisitor σ) (st : σ) :
    (v.harmonyHandlers = none →
      msrHarmonyAcceptIn elem v st = st ∧ msrHarmonyAcceptOut elem v st = st) ∧
    (∀ p : HarmonyVisitorHandlers σ, v.harmonyHandlers = some p →
      msrHarmonyAcceptIn elem v st = p.visitStartHarmony elem st ∧
      msrHarmonyAcceptOut elem v st = p.visitEndHarmony elem st) := by
  constructor
  · intro h
    constructor <;> simp [msrHarmonyAcceptIn, msrHarmonyAcceptOut, h]
  · intro p h
    constructor <;> simp [msrHarmonyAcceptIn, msrHarmonyAcceptOut, h]

/-- C9 witness: a visitor with no harmony handlers is skipped silently, one
with handlers has its `visitStart` launched. -/
theorem acceptIn_acceptOut_dispatch_witness :
    msrHarmonyAcceptIn ⟨3⟩ (⟨none⟩ : Basevisitor Nat) 5 = 5 ∧
    msrHarmonyAcceptIn ⟨3⟩
      (⟨some ⟨fun _ n => n + 1, fun _ n => n + 2⟩⟩ : Basevisitor Nat) 5 = 6 := by
  constructor
  · exact ((acceptIn_acceptOut_dispatch ⟨3⟩ (⟨none⟩ : Basevisitor Nat) 5).1 rfl).1
  · exact ((acceptIn_acceptOut_dispatch ⟨3⟩
      (⟨some ⟨fun _ n => n + 1, fun _ n => n + 2⟩⟩ : Basevisitor Nat) 5).2
        ⟨fun _ n => n + 1, fun _ n => n + 2⟩ rfl).1

/-! ## C10: header flushed once -/

/-- The in-place quote replacement visits each character once, so it is the
character map replacing every double quote by a single quote. -/
theorem replaceQuoteCharsAux_map (l : List Char) :
    replaceQuoteCharsAux l =
      l.map (fun c => if c = quoteChar then singleQuoteChar else c) := by
  induction l with
  | nil => rfl
  | cons c r ih => simp [replaceQuoteCharsAux, ih]

/-- The creator loop keeps exactly the creators typed "Composer"/"composer",
one composer tag each. -/
theorem flushCreators_filter (cs : List SCreator) :
    flushCreators cs =
      (cs.filter (fun c => c.typeAttr == "Composer" || c.typeAttr == "composer")).map
        (fun c => ⟨"composer", [GuidoParam.quoted c.value, GuidoParam.bare "dy=4hs"]⟩) := by
  induction cs with
  | nil => rfl
  | cons c r ih =>
    cases hb : (c.typeAttr == "Composer" || c.typeAttr == "composer") <;>
      simp [flushCreators, hb, List.filter_cons, ih]

/-- C10: on a header holding a title, `flushHeader` adds the title tag (every
double-quote character of the title replaced by a single quote) and one
composer tag (value plus the bare parameter dy=4hs) per stored creator typed
"Composer" or "composer"; it returns the header with the title nulled and the
creators cleared, so a second flush of the same header adds no elements. -/
theorem flushHeader_emits_once (title : String) (creators : List SCreator) :
    (flushHeader ⟨some title, creators⟩).2 =
      (⟨"title", [GuidoParam.quoted
          ⟨title.data.map (fun c => if c = quoteChar then singleQuoteChar else c)⟩]⟩ : GuidoTag) ::
        (creators.filter (fun c => c.typeAttr == "Composer" || c.typeAttr == "composer")).map
          (fun c => ⟨"composer", [GuidoParam.quoted c.value, GuidoParam.bare "dy=4hs"]⟩) ∧
    (flushHeader ⟨some title, creators⟩).1 = ⟨none, []⟩ ∧
    (flushHeader (flushHeader ⟨some title, creators⟩).1).2 = [] := by
  refine ⟨?_, rfl, rfl⟩
  simp [flushHeader, replaceQuoteChars, replaceQuoteCharsAux_map, flushCreators_filter]

/-! ## Helper lemmas for the tuplet stack claim -/

/-- Processing an event sequence splits over append. -/
theorem processTupletEvents_append (xs ys : List TupletEvent) (st : TranslatorState) :
    processTupletEvents (xs ++ ys) st = processTupletEvents ys (processTupletEvents xs st) := by
  induction xs generalizing st with
  | nil => rfl
  | cons e rest ih =>
    cases e with
    | tupletStart t => simp [processTupletEvents, ih]
    | tupletClose t => simp [processTupletEvents, ih]

/-- A tuplet start pushes exactly the freshly allocated clone. -/
theorem visitStartTuplet_stack (t : MsrTuplet) (st : TranslatorState) :
    (visitStartTuplet t st).fTupletClonesStack = st.fNextCloneId :: st.fTupletClonesStack := by
  rcases t with ⟨i, sh⟩
  cases sh <;> rfl

/-- A tuplet end pops exactly one entry (unchecked, a no-op on the empty
stack). -/
theorem visitEndTuplet_stack (t : MsrTuplet) (st : TranslatorState) :
    (visitEndTuplet t st).fTupletClonesStack = st.fTupletClonesStack.tail := by
  unfold visitEndTuplet
  cases h : st.fTupletClonesStack.tail <;> simp [h]

/-- Balanced visit sequences restore the tuplet clone stack. -/
theorem balanced_preserves_stack {evs : List TupletEvent} (hb : BalancedTuplets evs)
    (st : TranslatorState) :
    (processTupletEvents evs st).fTupletClonesStack = st.fTupletClonesStack := by
  induction hb generalizing st with
  | nil => rfl
  | wrap t u ws hws ih =>
    have h1 : processTupletEvents
        (TupletEvent.tupletStart t :: ws ++ [TupletEvent.tupletClose u]) st
        = visitEndTuplet u (processTupletEvents ws (visitStartTuplet t st)) := by
      simp [processTupletEvents, processTupletEvents_append]
    rw [h1, visitEndTuplet_stack, ih, visitStartTuplet_stack, List.tail_cons]
  | append xs ys hxs hys ihx ihy =>
    rw [processTupletEvents_append, ihy, ihx]

/-! ## C2: tuplet stack discipline -/

/-- C2 counterexample: a tuplet-end visited while the tuplet clone stack is
empty raises no fatal error - `visitEnd (S_msrTuplet&)` contains no emptiness
check and no `msrInternalError` call, the `fTupletClonesStack.pop ()` being
unchecked (undefined behavior on an empty `std::stack` in C++, modelled as a
no-op tail) - refuting the conjunct "a tuplet-end visited while the stack is
empty is a fatal error". -/
theorem tupletVisitEnd_emptyStack_no_fatal :
    initTranslatorState.fTupletClonesStack = [] ∧
    (visitEndTuplet ⟨5, TupletLineShapeKind.kTupletLineShapeCurved⟩
      initTranslatorState).fFatal = none := by
  decide

/-- C2 (amended): for any balanced sequence of tuplet-start/tuplet-end visits
the tuplet clone stack is restored (hence empty after the outermost end when it
started empty); each tuplet-end pops the stack and, if the stack is then
non-empty, nests the closed tuplet in the new stack top, otherwise appends it
to the current voice clone; but a tuplet-end visited while the stack is empty
raises no fatal error: the unchecked pop leaves the state intact apart from the
voice-clone append. -/
theorem tuplet_stack_discipline :
    (∀ (evs : List TupletEvent) (st : TranslatorState), BalancedTuplets evs →
      (processTupletEvents evs st).fTupletClonesStack = st.fTupletClonesStack) ∧
    (∀ (st : TranslatorState) (t : MsrTuplet) (c top : Nat) (rest : List Nat),
      st.fTupletClonesStack = c :: top :: rest →
      visitEndTuplet t st =
        { st with
          fTupletClonesStack := top :: rest
          fNestedTupletAdds := st.fNestedTupletAdds ++ [(top, t.ident)] }) ∧
    (∀ (st : TranslatorState) (t : MsrTuplet) (c : Nat),
      st.fTupletClonesStack = [c] →
      visitEndTuplet t st =
        { st with
          fTupletClonesStack := []
          fVoiceCloneTuplets := st.fVoiceCloneTuplets ++ [t.ident] }) ∧
    (∀ (st : TranslatorState) (t : MsrTuplet),
      st.fTupletClonesStack = [] →
        (visitEndTuplet t st).fFatal = st.fFatal ∧
        (visitEndTuplet t st).fTupletClonesStack = []) := by
  refine ⟨fun evs st hb => balanced_preserves_stack hb st, ?_, ?_, ?_⟩
  · intro st t c top rest h
    simp [visitEndTuplet, h]
  · intro st t c h
    simp [visitEndTuplet, h]
  · intro st t h
    simp [visitEndTuplet, h]

/-- C2 witness: one start/end pair from the fresh state leaves the stack
empty, and a tuplet-end on the fresh (empty-stack) state reports no fatal
error. -/
theorem tuplet_stack_discipline_witness :
    (processTupletEvents
      [TupletEvent.tupletStart ⟨3, TupletLineShapeKind.kTupletLineShapeCurved⟩,
       TupletEvent.tupletClose ⟨3, TupletLineShapeKind.kTupletLineShapeCurved⟩]
      initTranslatorState).fTupletClonesStack = [] ∧
    (visitEndTuplet ⟨4, TupletLineShapeKind.kTupletLineShapeCurved⟩
      initTranslatorState).fFatal = none := by
  constructor
  · exact tuplet_stack_discipline.1 _ initTranslatorState
      (BalancedTuplets.wrap ⟨3, TupletLineShapeKind.kTupletLineShapeCurved⟩
        ⟨3, TupletLineShapeKind.kTupletLineShapeCurved⟩ [] BalancedTuplets.nil)
  · exact ((tuplet_stack_discipline.2.2.2 initTranslatorState
      ⟨4, TupletLineShapeKind.kTupletLineShapeCurved⟩) rfl).1

/-! ## C1: the tuplet pass aliases the canonical MSR -/

/-- C1 (the code evaluated at the failing input): translating a single
top-level tuplet (canonical identifier 7) appends the canonical MSR tuplet
itself to the voice clone.  `visitStart (S_msrTuplet&)` creates and pushes a
newborn clone (fresh identifier 100, registered in `fCloneOf`), but
`visitEnd (S_msrTuplet&)` pops and discards it and appends `elt` instead, so
the clone identifier never reaches the output and a second target built from
the same MSR (a second translator instance, clone identifiers from 200)
receives the same canonical element 7 - the canonical MSR element is aliased
by every output tree, contradicting the cloning claim. -/
theorem tupletVisitEnd_appends_original_msr_tuplet :
    ((visitEndTuplet ⟨7, TupletLineShapeKind.kTupletLineShapeStraight⟩
        (visitStartTuplet ⟨7, TupletLineShapeKind.kTupletLineShapeStraight⟩
          initTranslatorState)).fVoiceCloneTuplets = [7]) ∧
    ((visitStartTuplet ⟨7, TupletLineShapeKind.kTupletLineShapeStraight⟩
        initTranslatorState).fCloneOf = [(100, 7)]) ∧
    ((100 : Nat) ∉ (visitEndTuplet ⟨7, TupletLineShapeKind.kTupletLineShapeStraight⟩
        (visitStartTuplet ⟨7, TupletLineShapeKind.kTupletLineShapeStraight⟩
          initTranslatorState)).fVoiceCloneTuplets) ∧
    ((visitEndTuplet ⟨7, TupletLineShapeKind.kTupletLineShapeStraight⟩
        (visitStartTuplet ⟨7, TupletLineShapeKind.kTupletLineShapeStraight⟩
          { initTranslatorState with fNextCloneId := 200 })).fVoiceCloneTuplets = [7]) := by
  decide

/-! ## C7: structural note errors are fatal -/

/-- C7: visiting the end of a chord-member (or grace-chord-member) note while
no chord is ongoing, of a grace note while no grace-notes group is ongoing, or
of a double-tremolo member while no double tremolo is ongoing, raises the
fatal internal error carrying the visited note's input source line; the
resulting state differs only in the recorded fatal error, so no element is
appended to the output tree. -/
theorem note_structural_errors_fatal (st : TranslatorState) (elt : MsrNote) :
    ((elt.noteKind = MsrNoteKind.kChordMemberNote ∨
        elt.noteKind = MsrNoteKind.kGraceChordMemberNote) →
      st.fOnGoingChord = false →
      visitEndNote elt st =
        { st with fFatal := some ⟨elt.inputLineNumber, chordMemberOutsideChordMessage elt⟩ }) ∧
    (elt.noteKind = MsrNoteKind.kGraceNote →
      st.fOnGoingGraceNotesGroup = false →
      visitEndNote elt st =
        { st with fFatal := some ⟨elt.inputLineNumber,
            graceNoteOutsideMessage st.fCurrentNonGraceNoteClone⟩ }) ∧
    (elt.noteKind = MsrNoteKind.kDoubleTremoloMemberNote →
      st.fOnGoingDoubleTremolo = false →
      visitEndNote elt st =
        { st with fFatal := some ⟨elt.inputLineNumber,
            tremoloNoteOutsideMessage st.fCurrentNonGraceNoteClone⟩ }) := by
  refine ⟨?_, ?_, ?_⟩
  · rintro (hk | hk) hc <;> simp [visitEndNote, hk, hc, msrInternalError]
  · intro hk hg
    simp [visitEndNote, hk, hg, msrInternalError]
  · intro hk hd
    simp [visitEndNote, hk, hd, msrInternalError]

/-- C7 witness: a chord-member note at source line 17 visited with no ongoing
chord yields exactly the fatal-error state. -/
theorem note_structural_errors_fatal_witness :
    visitEndNote ⟨1, MsrNoteKind.kChordMemberNote, 17, "q"⟩ initTranslatorState =
      { initTranslatorState with fFatal := some ⟨17,
          chordMemberOutsideChordMessage ⟨1, MsrNoteKind.kChordMemberNote, 17, "q"⟩⟩ } :=
  (note_structural_errors_fatal initTranslatorState
    ⟨1, MsrNoteKind.kChordMemberNote, 17, "q"⟩).1 (Or.inl rfl) rfl

/-! ## C3: the repeat state machine -/

/-- C3 (spec-modelled: the implementing `msrVoice::handleRepeat...InVoiceClone`
family is in `msr.cpp`, not under `src/`): per voice, RepeatStart moves Outside
to InCommonPart and opens a wrapper, RepeatEndingStart/RepeatEndingEnd enter
and leave InEnding recording the ending's number and kind, RepeatEnd closes the
wrapper returning to Outside; a RepeatEndingStart while already InEnding is
fatal; and a phase is exactly one of the three states, so at most one is active
per voice at any time. -/
theorem repeat_state_machine_spec (n n2 : String) (k k2 : MsrRepeatEndingKind) (w : Nat) :
    handleRepeatEvent RepeatEvent.repeatStart ⟨RepeatPhase.outside, w⟩ =
      Except.ok ⟨RepeatPhase.inCommonPart, w + 1⟩ ∧
    handleRepeatEvent (RepeatEvent.repeatEndingStart n k) ⟨RepeatPhase.inCommonPart, w⟩ =
      Except.ok ⟨RepeatPhase.inEnding n k, w⟩ ∧
    handleRepeatEvent (RepeatEvent.repeatEndingEnd n k) ⟨RepeatPhase.inEnding n k, w⟩ =
      Except.ok ⟨RepeatPhase.inCommonPart, w⟩ ∧
    handleRepeatEvent RepeatEvent.repeatEnd ⟨RepeatPhase.inCommonPart, w + 1⟩ =
      Except.ok ⟨RepeatPhase.outside, w⟩ ∧
    (∃ msg, handleRepeatEvent (RepeatEvent.repeatEndingStart n2 k2)
      ⟨RepeatPhase.inEnding n k, w⟩ = Except.error msg) ∧
    (∀ p : RepeatPhase, p = RepeatPhase.outside ∨ p = RepeatPhase.inCommonPart ∨
      ∃ m km, p = RepeatPhase.inEnding m km) := by
  refine ⟨rfl, rfl, rfl, rfl, ⟨_, rfl⟩, ?_⟩
  intro p
  cases p with
  | outside => exact Or.inl rfl
  | inCommonPart => exact Or.inr (Or.inl rfl)
  | inEnding m km => exact Or.inr (Or.inr ⟨m, km, rfl⟩)

/-! ## Helper lemmas for the staff-creation claim -/

/-- A voice whose main staff equals the current target staff opens its sequence
on the current staff index and changes nothing else. -/
theorem visitPartVoice_same (off m : Int) (created tags : List Int) (hm : 1 ≤ m) :
    visitPartVoice ⟨off + m, off, created, tags⟩ m m =
      (m, ⟨off + m, off, created, tags ++ [off + m]⟩) := by
  have h1 : m ≠ -1 := by omega
  simp [visitPartVoice, h1]

/-- A voice whose main staff is the next staff up increments the staff index
and synthesizes nothing. -/
theorem visitPartVoice_next (off m : Int) (created tags : List Int) (hm : 1 ≤ m) :
    visitPartVoice ⟨off + m, off, created, tags⟩ m (m + 1) =
      (m + 1, ⟨off + m + 1, off, created, tags ++ [off + m + 1]⟩) := by
  have h1 : m ≠ -1 := by omega
  have h2 : m ≠ m + 1 := by omega
  have h3 : m + 1 > m := by omega
  have h4 : m + 1 + off - (off + m + 1) = 0 := by ring
  simp [visitPartVoice, fillIntermediateStaves, h1, h2, h3, h4, createStaffRange]

/-- The first voice of a part whose main staff is staff 1 opens its sequence on
the next staff index and synthesizes nothing. -/
theorem visitPartVoice_first (off : Int) (created tags : List Int) :
    visitPartVoice ⟨off, off, created, tags⟩ (-1) 1 =
      (1, ⟨off + 1, off, created, tags ++ [off + 1]⟩) := by
  have h4 : (1 : Int) + off - (off + 1) = 0 := by ring
  simp [visitPartVoice, fillIntermediateStaves, h4, createStaffRange]

/-- The voice loop along a sorted gap-free staff chain: each voice opens one
sequence at its main staff (plus the carried part offset), no intermediate
staves are synthesized, and the staff index lands on the offset plus the last
staff of the chain. -/
theorem visitPartVoices_chain (ms : List Int) (m bigN : Int) (st : GuidoPartState)
    (hm : 1 ≤ m) (hchain : staffSpanChain m ms bigN = true)
    (hidx : st.fCurrentStaffIndex = st.fCurrentPartStaffOffset + m) :
    visitPartVoices st m ms =
      { st with
        voiceStaffTags := st.voiceStaffTags ++
          ms.map (fun s => st.fCurrentPartStaffOffset + s)
        fCurrentStaffIndex := st.fCurrentPartStaffOffset + bigN } := by
  induction ms generalizing m st with
  | nil =>
    rcases st with ⟨idx, off, created, tags⟩
    simp only [staffSpanChain, beq_iff_eq] at hchain
    simp only at hidx
    subst hchain
    subst hidx
    simp [visitPartVoices]
  | cons s rest ih =>
    rcases st with ⟨idx, off, created, tags⟩
    simp only [staffSpanChain, Bool.and_eq_true, Bool.or_eq_true, beq_iff_eq] at hchain
    obtain ⟨hs, hrest⟩ := hchain
    simp only at hidx
    subst hidx
    rcases hs with hs | hs
    · subst hs
      rw [visitPartVoices, visitPartVoice_same off s created tags hm]
      rw [ih s ⟨off + s, off, created, tags ++ [off + s]⟩ hm hrest rfl]
      simp
    · subst hs
      rw [visitPartVoices, visitPartVoice_next off m created tags hm]
      rw [ih (m + 1) ⟨off + m + 1, off, created, tags ++ [off + m + 1]⟩
        (by omega) hrest (by simp; ring)]
      simp [add_assoc]

/-- A chain ends no lower than it starts. -/
theorem staffSpanChain_le (ms : List Int) : ∀ (m bigN : Int),
    staffSpanChain m ms bigN = true → m ≤ bigN := by
  induction ms with
  | nil =>
    intro m bigN h
    simp only [staffSpanChain, beq_iff_eq] at h
    omega
  | cons s rest ih =>
    intro m bigN h
    simp only [staffSpanChain, Bool.and_eq_true, Bool.or_eq_true, beq_iff_eq] at h
    obtain ⟨hs, hr⟩ := h
    have := ih s bigN hr
    rcases hs with h1 | h1 <;> omega

/-- Members of a chain lie between its start and its end. -/
theorem staffSpanChain_mem_le (ms : List Int) : ∀ (m bigN k : Int),
    staffSpanChain m ms bigN = true → k ∈ ms → k ≤ bigN ∧ m ≤ k := by
  induction ms with
  | nil =>
    intro m bigN k h hk
    simp at hk
  | cons s rest ih =>
    intro m bigN k h hk
    simp only [staffSpanChain, Bool.and_eq_true, Bool.or_eq_true, beq_iff_eq] at h
    obtain ⟨hs, hr⟩ := h
    rcases List.mem_cons.mp hk with hk | hk
    · subst hk
      have := staffSpanChain_le rest k bigN hr
      rcases hs with h1 | h1 <;> omega
    · have := ih s bigN k hr hk
      rcases hs with h1 | h1 <;> omega

/-- A chain visits every staff strictly between its start and its end. -/
theorem staffSpanChain_mem_of_le (ms : List Int) : ∀ (m bigN k : Int),
    staffSpanChain m ms bigN = true → m < k → k ≤ bigN → k ∈ ms := by
  induction ms with
  | nil =>
    intro m bigN k h hk1 hk2
    simp only [staffSpanChain, beq_iff_eq] at h
    exfalso
    omega
  | cons s rest ih =>
    intro m bigN k h hk1 hk2
    simp only [staffSpanChain, Bool.and_eq_true, Bool.or_eq_true, beq_iff_eq] at h
    obtain ⟨hs, hr⟩ := h
    by_cases hks : k = s
    · subst hks
      exact List.mem_cons_self _ _
    · have hsk : s < k := by rcases hs with h1 | h1 <;> omega
      exact List.mem_cons_of_mem _ (ih s bigN k hr hsk hk2)

/-! ## C6: staff creation per part -/

/-- C6 counterexample: a part of 3 staves whose voices are discovered in
main-staff order [3, 1, 2] (staves spanning 1..3 with no gaps) opens five
staff sequences - synthesized staves 1 and 2, then voice sequences tagged 3, 3
and 4 - over four distinct staff indices, not the three the claim predicts:
staff creation is not independent of the voice discovery order, and the voice
on main staff 2 is even tagged on staff index 4. -/
theorem staff_creation_order_counterexample :
    (visitStartPart [3, 1, 2] 3 initGuidoPartState).createdStaves = [1, 2] ∧
    (visitStartPart [3, 1, 2] 3 initGuidoPartState).voiceStaffTags = [3, 3, 4] ∧
    ((visitStartPart [3, 1, 2] 3 initGuidoPartState).createdStaves ++
        (visitStartPart [3, 1, 2] 3 initGuidoPartState).voiceStaffTags).dedup.length = 4 ∧
    ((visitStartPart [3, 1, 2] 3 initGuidoPartState).createdStaves.length +
        (visitStartPart [3, 1, 2] 3 initGuidoPartState).voiceStaffTags.length) = 5 := by
  decide

/-- C6 (amended): provided the voices are discovered in non-decreasing
main-staff order without gaps - the first voice on staff 1, each later voice on
the previous voice's staff or the next one, ending at staff N - visiting the
part opens exactly one staff sequence per voice, tagged with the voice's main
staff, synthesizes no intermediate or trailing staves, leaves the staff index
and the part staff offset at N, and the set of staff indices opened is exactly
1..N; for other discovery orders staff indices beyond N can be opened (see the
counterexample). -/
theorem staff_creation_sorted_span (ms : List Int) (bigN : Int)
    (hhead : ms.head? = some 1) (hchain : staffSpanChain 0 ms bigN = true) :
    (visitStartPart ms bigN initGuidoPartState).createdStaves = [] ∧
    (visitStartPart ms bigN initGuidoPartState).voiceStaffTags = ms ∧
    (visitStartPart ms bigN initGuidoPartState).fCurrentStaffIndex = bigN ∧
    (visitStartPart ms bigN initGuidoPartState).fCurrentPartStaffOffset = bigN ∧
    (∀ k : Int, k ∈ ms ↔ 1 ≤ k ∧ k ≤ bigN) := by
  cases ms with
  | nil => simp at hhead
  | cons s rest =>
    have hs1 : s = 1 := by simpa using hhead
    subst hs1
    simp only [staffSpanChain, Bool.and_eq_true, Bool.or_eq_true, beq_iff_eq] at hchain
    obtain ⟨_, hrest⟩ := hchain
    have hloop : visitPartVoices initGuidoPartState (-1) (1 :: rest) =
        ⟨bigN, 0, [], 1 :: rest⟩ := by
      have h0 : visitPartVoices initGuidoPartState (-1) (1 :: rest) =
          visitPartVoices (visitPartVoice initGuidoPartState (-1) 1).2
            (visitPartVoice initGuidoPartState (-1) 1).1 rest := rfl
      rw [h0, show initGuidoPartState = (⟨0, 0, [], []⟩ : GuidoPartState) from rfl,
        visitPartVoice_first 0 [] []]
      show visitPartVoices ⟨0 + 1, 0, [], [] ++ [0 + 1]⟩ 1 rest = _
      rw [visitPartVoices_chain rest 1 bigN ⟨0 + 1, 0, [], [] ++ [0 + 1]⟩
        le_rfl hrest rfl]
      simp
    have hfin : visitStartPart (1 :: rest) bigN initGuidoPartState =
        ⟨bigN, bigN, [], 1 :: rest⟩ := by
      rw [visitStartPart, hloop]
      have hz : ((0 : Int) + bigN - bigN).toNat = 0 := by
        simp
      simp [hz, createStaffRange]
    rw [hfin]
    refine ⟨rfl, rfl, rfl, rfl, ?_⟩
    intro k
    constructor
    · intro hk
      rcases List.mem_cons.mp hk with hk | hk
      · subst hk
        have := staffSpanChain_le rest 1 bigN hrest
        omega
      · have := staffSpanChain_mem_le rest 1 bigN k hrest hk
        omega
    · intro hk
      by_cases hk1 : k = 1
      · subst hk1
        exact List.mem_cons_self _ _
      · exact List.mem_cons_of_mem _
          (staffSpanChain_mem_of_le rest 1 bigN k hrest (by omega) hk.2)

/-- C6 witness: the sorted discovery order [1, 2, 2, 3] spanning staves 1..3
opens one sequence per voice, synthesizes nothing, and covers exactly 1..3. -/
theorem staff_creation_sorted_span_witness :
    (visitStartPart [1, 2, 2, 3] 3 initGuidoPartState).createdStaves = [] ∧
    (visitStartPart [1, 2, 2, 3] 3 initGuidoPartState).voiceStaffTags = [1, 2, 2, 3] ∧
    ((2 : Int) ∈ [(1 : Int), 2, 2, 3] ↔ 1 ≤ (2 : Int) ∧ (2 : Int) ≤ 3) := by
  have h := staff_creation_sorted_span [1, 2, 2, 3] 3 rfl (by decide)
  exact ⟨h.1, h.2.1, h.2.2.2.2 2⟩

end MusicXML2
